import Mathlib

set_option maxHeartbeats 1000000

/-!
Verification development for the MBR partition-table codec of `src/bin/nyns.cpp`.

The codec operates on the first 512-byte sector of a target path.  We embed a
sector as a byte function `Nat → Nat` (only offsets `< 512` are ever accessed),
a file as its byte length together with its bytes, and the filesystem entry
found at a target path as regular file / block device / directory / absent.
Each C++ operation becomes a Lean function that returns a typed result, the
target's new state, and the trace of I/O actions performed on the target, so
that "fails without opening/writing the path" is a statement about the trace.
Failures of the underlying write and flush system calls, and of parent
directory creation, are injected through an `Env` of booleans.
-/

namespace Nyns

/-- A sector is addressed by byte offset; the codec touches offsets `< 512`. -/
abbrev Sector := Nat → Nat

/-- Contents of a regular file: its byte length and its bytes
(`byte i` is meaningful for `i < size`). -/
structure FileBytes where
  size : Nat
  byte : Sector

/-- The filesystem object found at a path. Block devices and directories carry
no modelled content (the codec never reads bytes from them on any path that
matters to the claims). -/
inductive FsEntry where
  | regular (content : FileBytes)
  | blockdev
  | directory

/-- A target path together with what the filesystem holds there. -/
structure Target where
  path : String
  entry : Option FsEntry

/-- `is_block_device` in nyns.cpp: `stat` then `S_ISBLK`; a failed `stat`
(no entry) yields `false`. -/
def is_block_device (t : Target) : Bool :=
  match t.entry with
  | some .blockdev => true
  | _ => false

/-- `device.rfind("/dev/", 0) == 0`: the path begins with the reserved
device prefix. Stated over the character list so that it is kernel-reducible
on literals. -/
def devPrefixed (p : String) : Bool :=
  p.data.take 5 == ("/dev/").data

/-- The common guard of the three mutating operations:
`device.rfind("/dev/", 0) == 0 || is_block_device(device)`. -/
def forbidden_target (t : Target) : Bool :=
  devPrefixed t.path || is_block_device t

/-- Errors, named as in the specification's taxonomy; the C++ returns `false`
with a distinguishing message on each branch, which we map to these. -/
inductive MbrError where
  | NotFound
  | IoError
  | ForbiddenTarget
  | TooSmall
  | TooLarge
  | AlreadyPartitioned
  | AlreadyExists
deriving DecidableEq, Repr

/-- Result of one operation. -/
inductive OpRes where
  | ok
  | err (e : MbrError)
deriving DecidableEq, Repr

/-- I/O actions performed on the target path, in order. -/
inductive Ev where
  | evOpen
  | evRead
  | evWrite
  | evFlush
deriving DecidableEq, Repr

/-- Environment injecting outcomes of the fallible system calls: does a
`write` to the target succeed, does the final `flush` succeed, does
`mkdir_p` on the parent directory succeed. -/
structure Env where
  writeOk : Bool
  flushOk : Bool
  mkdirOk : Bool

/-- Outcome of an operation: typed result, resulting target state, trace. -/
structure OpOut where
  res : OpRes
  tgt : Target
  evs : List Ev

/-! ### Sector layout (struct PartitionEntry packed at offset 446) -/

/-- `MBR_PART_TABLE_OFFSET` in nyns.cpp. -/
def MBR_PART_TABLE_OFFSET : Nat := 446

/-- `MBR_MAX_PARTITIONS` in nyns.cpp. -/
def MBR_MAX_PARTITIONS : Nat := 4

/-- Little-endian 32-bit decode of 4 bytes starting at `off`
(`std::uint32_t` fields of the packed struct on a little-endian host). -/
def le32 (s : Sector) (off : Nat) : Nat :=
  s off + 256 * s (off + 1) + 65536 * s (off + 2) + 16777216 * s (off + 3)

/-- Byte `k` of the little-endian encoding of `v`. -/
def le32byte (v k : Nat) : Nat := v / 256 ^ k % 256

/-- `boot_indicator` of entry `i`: byte offset `446 + 16*i`. -/
def entryBoot (s : Sector) (i : Nat) : Nat := s (446 + 16 * i)

/-- `partition_type` of entry `i`: byte offset `446 + 16*i + 4`. -/
def entryType (s : Sector) (i : Nat) : Nat := s (446 + 16 * i + 4)

/-- `start_lba` of entry `i`: little-endian at byte offset `446 + 16*i + 8`. -/
def entryStartLba (s : Sector) (i : Nat) : Nat := le32 s (446 + 16 * i + 8)

/-- `size_sectors` of entry `i`: little-endian at byte offset `446 + 16*i + 12`. -/
def entrySize (s : Sector) (i : Nat) : Nat := le32 s (446 + 16 * i + 12)

/-- The presence test used by `add_single_partition`:
`entries[i].partition_type != 0 && entries[i].size_sectors != 0`. -/
def entryPresent (s : Sector) (i : Nat) : Bool :=
  decide (entryType s i ≠ 0) && decide (entrySize s i ≠ 0)

/-- The loop `for (i = 0; i < MBR_MAX_PARTITIONS; ++i)` of
`add_single_partition` checking for existing entries. -/
def anyPresent (s : Sector) : Bool :=
  (List.range 4).any (fun i => entryPresent s i)

/-- One partition record as printed by `print_mbr_partitions`. -/
structure PartRecord where
  index : Nat
  boot : Bool
  ptype : Nat
  start_lba : Nat
  size_sectors : Nat
deriving DecidableEq, Repr

/-- The entry-printing loop of `print_mbr_partitions`: entries with
`partition_type == 0 || size_sectors == 0` are skipped (`continue`); a
printed record reports `i + 1`, `boot_indicator == 0x80`, the raw type
byte, and the two little-endian 32-bit fields. -/
def mbrEntries (s : Sector) : List PartRecord :=
  (List.range 4).filterMap (fun i =>
    if entryType s i = 0 ∨ entrySize s i = 0 then none
    else some ⟨i + 1, decide (entryBoot s i = 0x80), entryType s i,
               entryStartLba s i, entrySize s i⟩)

/-- Sector-level effect of `std::memset(sector + 446, 0, 64)`. -/
def wipeSector (s : Sector) : Sector :=
  fun i => if 446 ≤ i ∧ i < 510 then 0 else s i

/-- The signature test `sector[510] != 0x55 || sector[511] != 0xAA`
(stated positively: the signature is present). -/
def hasSig (s : Sector) : Bool :=
  decide (s 510 = 0x55) && decide (s 511 = 0xAA)

/-- The fresh sector synthesized by `add_single_partition` when the
signature is absent: `memset(sector, 0, 512)` then the two signature bytes. -/
def freshSector : Sector :=
  fun i => if i = 510 then 0x55 else if i = 511 then 0xAA else 0

/-- Writing entry 0 (`memset(&p, 0, 16)` then `boot_indicator = 0x00`,
`partition_type = 0x83`, `start_lba = 1`, `size_sectors = sz`): bytes
446..461 become the entry's bytes, the rest of the sector is untouched. -/
def setEntry0 (s : Sector) (sz : Nat) : Sector :=
  fun i =>
    if i < 446 then s i
    else if i < 462 then
      (if i - 446 = 4 then 0x83
       else if 8 ≤ i - 446 ∧ i - 446 < 12 then le32byte 1 (i - 446 - 8)
       else if 12 ≤ i - 446 ∧ i - 446 < 16 then le32byte sz (i - 446 - 12)
       else 0)
    else s i

/-- Writing the full 512-byte in-memory sector back at offset 0
(`dev.seekp(0); dev.write(sector, 512)`): the file keeps its length and
all bytes beyond the first sector. -/
def writeBackSector (c : FileBytes) (s : Sector) : FileBytes :=
  ⟨c.size, fun i => if i < 512 then s i else c.byte i⟩

/-! ### The four operations -/

/-- `print_mbr_partitions` in nyns.cpp (the read/list operation): open the
path read-only, read one full sector (a short read is a hard failure), warn
but proceed on a missing signature, and emit the present entries. -/
inductive ReadRes where
  | ok (entries : List PartRecord)
  | err (e : MbrError)
deriving DecidableEq, Repr

/-- `print_mbr_partitions(device)`. A target with no regular-file content
that can be opened and read is reported as `NotFound` (block-device content
is outside the model). -/
def print_mbr_partitions (t : Target) : ReadRes :=
  match t.entry with
  | some (.regular c) =>
    if c.size < 512 then .err .IoError
    else .ok (mbrEntries c.byte)
  | _ => .err .NotFound

/-- `wipe_mbr_partition_table(device)`: block-device guard, open
read-write, read one sector (short read fails), zero bytes 446..509, write
the sector back at offset 0 (checked), flush (result unchecked). -/
def wipe_mbr_partition_table (t : Target) (e : Env) : OpOut :=
  if forbidden_target t then ⟨.err .ForbiddenTarget, t, []⟩
  else
    match t.entry with
    | some (.regular c) =>
      if c.size < 512 then ⟨.err .IoError, t, [.evOpen, .evRead]⟩
      else if e.writeOk then
        ⟨.ok, { t with entry := some (.regular (writeBackSector c (wipeSector c.byte))) },
          [.evOpen, .evRead, .evWrite, .evFlush]⟩
      else ⟨.err .IoError, t, [.evOpen, .evRead, .evWrite]⟩
    | _ => ⟨.err .NotFound, t, [.evOpen]⟩

/-- `add_single_partition(device)`: block-device guard, open read-write,
determine the byte length (`file_size <= 0` is its own failure), reject
fewer than 1024 bytes, reject more than `0xFFFFFFFF` total sectors, read
one sector, replace the sector by a fresh signed one when the signature is
absent, reject any present entry, write entry 0 spanning the rest of the
image, write the sector back (checked), flush (result unchecked). -/
def add_single_partition (t : Target) (e : Env) : OpOut :=
  if forbidden_target t then ⟨.err .ForbiddenTarget, t, []⟩
  else
    match t.entry with
    | some (.regular c) =>
      if c.size = 0 then ⟨.err .IoError, t, [.evOpen]⟩
      else if c.size < 1024 then ⟨.err .TooSmall, t, [.evOpen]⟩
      else if 4294967295 < c.size / 512 then ⟨.err .TooLarge, t, [.evOpen]⟩
      else if c.size < 512 then ⟨.err .IoError, t, [.evOpen, .evRead]⟩
      else
        let s1 : Sector := if hasSig c.byte then c.byte else freshSector
        if anyPresent s1 then ⟨.err .AlreadyPartitioned, t, [.evOpen, .evRead]⟩
        else if e.writeOk then
          ⟨.ok,
           { t with entry := some (.regular
               (writeBackSector c (setEntry0 s1 (c.size / 512 - 1)))) },
           [.evOpen, .evRead, .evWrite, .evFlush]⟩
        else ⟨.err .IoError, t, [.evOpen, .evRead, .evWrite]⟩
    | _ => ⟨.err .NotFound, t, [.evOpen]⟩

/-- The sector built by `create_image_with_partition`: all zero, signature
bytes, entry 0 with type `0x83`, start LBA 1, size `1024 - 1` sectors. -/
def createSector : Sector := setEntry0 freshSector 1023

/-- `create_image_with_partition(image)`: block-device guard, fail if
`stat` finds any existing entry, create parent directories (`mkdir_p`),
open with truncation (creating the file), write the sector (checked), seek
to byte 524287 and write one zero byte so the file's stat-visible size is
exactly 1024·512 bytes (checked), flush (result unchecked). -/
def create_image_with_partition (t : Target) (e : Env) : OpOut :=
  if forbidden_target t then ⟨.err .ForbiddenTarget, t, []⟩
  else
    match t.entry with
    | some _ => ⟨.err .AlreadyExists, t, []⟩
    | none =>
      if !e.mkdirOk then ⟨.err .IoError, t, []⟩
      else if e.writeOk then
        ⟨.ok,
         { t with entry := some (.regular
             ⟨524288, fun i => if i < 512 then createSector i else 0⟩) },
         [.evOpen, .evWrite, .evWrite, .evFlush]⟩
      else ⟨.err .IoError, { t with entry := some (.regular ⟨0, fun _ => 0⟩) },
            [.evOpen, .evWrite]⟩

/-! ### Concrete targets and environments used to exercise the theorems -/

/-- A block-device path (also OS-classified absent here; the prefix alone
triggers the guard). -/
def devTarget : Target := ⟨"/dev/sda", none⟩

/-- Environment in which every system call succeeds. -/
def envAll : Env := ⟨true, true, true⟩

/-- Environment in which the final flush fails. -/
def envNoFlush : Env := ⟨true, false, true⟩

/-- Environment in which writes to the target fail. -/
def envNoWrite : Env := ⟨false, true, true⟩

/-- A 1024-byte all-zero image (no signature, no entries). -/
def emptyImage : FileBytes := ⟨1024, fun _ => 0⟩

/-- Target holding `emptyImage` at a regular-file path. -/
def emptyImageTarget : Target := ⟨"disk.img", some (.regular emptyImage)⟩

/-- The 524288-byte image produced by `create_image_with_partition`. -/
def partitionedImage : FileBytes :=
  ⟨524288, fun i => if i < 512 then createSector i else 0⟩

/-- Target holding `partitionedImage` at a regular-file path. -/
def partitionedTarget : Target := ⟨"full.img", some (.regular partitionedImage)⟩

/-! ### Helper lemmas -/

/-- A `filterMap` whose function is an if-then-else between `none` and a
`some` is the `map` of the `filter`. -/
theorem filterMap_ite_none (l : List Nat) (p : Nat → Prop) [DecidablePred p]
    (g : Nat → PartRecord) :
    (l.filterMap fun i => if p i then none else some (g i))
      = (l.filter fun i => decide ¬ p i).map g := by
  induction l with
  | nil => rfl
  | cons a l ih =>
    by_cases h : p a <;> simp [List.filterMap_cons, List.filter_cons, h, ih]

/-- `anyPresent` unfolded over the four entry slots. -/
theorem anyPresent_eq (s : Sector) :
    anyPresent s
      = (entryPresent s 0 || (entryPresent s 1 || (entryPresent s 2 || entryPresent s 3))) := by
  cases h0 : entryPresent s 0 <;> cases h1 : entryPresent s 1 <;>
    cases h2 : entryPresent s 2 <;> cases h3 : entryPresent s 3 <;>
      simp [anyPresent, List.range_succ, h0, h1, h2, h3]

/-- Bytes written back within the sector. -/
theorem writeBackSector_byte_lt (c : FileBytes) (s : Sector) (i : Nat) (h : i < 512) :
    (writeBackSector c s).byte i = s i := by
  simp [writeBackSector, h]

/-- Bytes beyond the sector are unchanged by a sector write-back. -/
theorem writeBackSector_byte_ge (c : FileBytes) (s : Sector) (i : Nat) (h : 512 ≤ i) :
    (writeBackSector c s).byte i = c.byte i := by
  have hni : ¬ i < 512 := by omega
  simp [writeBackSector, hni]

/-- A sector write-back does not change the file's length. -/
theorem writeBackSector_size (c : FileBytes) (s : Sector) :
    (writeBackSector c s).size = c.size := rfl

/-- `le32` only looks at the four bytes starting at `off`, all inside the
sector when `off + 3 < 512`. -/
theorem le32_writeBack (c : FileBytes) (s : Sector) (off : Nat) (h : off + 3 < 512) :
    le32 (writeBackSector c s).byte off = le32 s off := by
  unfold le32
  rw [writeBackSector_byte_lt, writeBackSector_byte_lt,
      writeBackSector_byte_lt, writeBackSector_byte_lt] <;> omega

/-- Presence of an entry is decided inside the sector. -/
theorem entryPresent_writeBack (c : FileBytes) (s : Sector) (i : Nat) (h : i < 4) :
    entryPresent (writeBackSector c s).byte i = entryPresent s i := by
  unfold entryPresent entryType entrySize
  rw [writeBackSector_byte_lt _ _ _ (by omega), le32_writeBack _ _ _ (by omega)]

/-- `setEntry0` leaves every byte outside 446..461 unchanged. -/
theorem setEntry0_frame (s : Sector) (sz i : Nat) (h : i < 446 ∨ 462 ≤ i) :
    setEntry0 s sz i = s i := by
  unfold setEntry0
  rcases h with h | h
  · simp [h]
  · have h1 : ¬ i < 446 := by omega
    have h2 : ¬ i < 462 := by omega
    simp [h1, h2]

/-- The synthesized entry 0 is inactive (boot indicator 0). -/
theorem entryBoot_setEntry0 (s : Sector) (sz : Nat) :
    entryBoot (setEntry0 s sz) 0 = 0 := by
  norm_num [entryBoot, setEntry0]

/-- The synthesized entry 0 has partition type `0x83`. -/
theorem entryType_setEntry0 (s : Sector) (sz : Nat) :
    entryType (setEntry0 s sz) 0 = 0x83 := by
  norm_num [entryType, setEntry0]

/-- The synthesized entry 0 starts at LBA 1. -/
theorem entryStartLba_setEntry0 (s : Sector) (sz : Nat) :
    entryStartLba (setEntry0 s sz) 0 = 1 := by
  norm_num [entryStartLba, le32, setEntry0, le32byte]

/-- The synthesized entry 0 has the requested sector count (little-endian
round-trip, for counts below `2^32`). -/
theorem entrySize_setEntry0 (s : Sector) (sz : Nat) (h : sz < 4294967296) :
    entrySize (setEntry0 s sz) 0 = sz := by
  norm_num [entrySize, le32, setEntry0, le32byte]
  omega

/-- Writing entry 0 does not change the presence of entries 1..3. -/
theorem entryPresent_setEntry0 (s : Sector) (sz i : Nat) (h : 1 ≤ i) :
    entryPresent (setEntry0 s sz) i = entryPresent s i := by
  unfold entryPresent entryType entrySize le32
  rw [setEntry0_frame _ _ _ (by omega), setEntry0_frame _ _ _ (by omega),
      setEntry0_frame _ _ _ (by omega), setEntry0_frame _ _ _ (by omega),
      setEntry0_frame _ _ _ (by omega)]

/-! ### Claims -/

/-- Claim C1: for every path classified as a real block device (reserved
`/dev/` prefix or OS-reported block-special entry), each mutating operation
fails with `ForbiddenTarget` with an empty I/O trace: nothing was opened,
read, or written before the check. -/
theorem mutating_ops_refuse_block_devices (t : Target) (e : Env)
    (h : forbidden_target t = true) :
    ((wipe_mbr_partition_table t e).res = .err .ForbiddenTarget
      ∧ (wipe_mbr_partition_table t e).evs = [])
  ∧ ((add_single_partition t e).res = .err .ForbiddenTarget
      ∧ (add_single_partition t e).evs = [])
  ∧ ((create_image_with_partition t e).res = .err .ForbiddenTarget
      ∧ (create_image_with_partition t e).evs = []) := by
  unfold wipe_mbr_partition_table add_single_partition create_image_with_partition
  simp [h]

/-- Witness for C1 at the concrete path `/dev/sda`. -/
theorem mutating_ops_refuse_block_devices_witness :
    forbidden_target devTarget = true
  ∧ (wipe_mbr_partition_table devTarget envAll).res = .err .ForbiddenTarget :=
  ⟨by decide, (mutating_ops_refuse_block_devices devTarget envAll (by decide)).1.1⟩

/-- The claim's presence condition, transliterated: the partition-type byte
is nonzero and the size-in-sectors field is nonzero. -/
def specPresent (s : Sector) (i : Nat) : Bool :=
  decide (entryType s i ≠ 0) && decide (entrySize s i ≠ 0)

/-- The claim's record shape, transliterated: 1-based index equal to entry
position plus one, boot flag true iff the boot-indicator byte equals `0x80`,
the raw type byte, and the two little-endian 32-bit fields. -/
def specRecord (s : Sector) (i : Nat) : PartRecord :=
  ⟨i + 1, decide (entryBoot s i = 0x80), entryType s i,
   entryStartLba s i, entrySize s i⟩

/-- Claim C2: on every successfully read sector, `read` returns exactly the
entries whose type byte and size field are both nonzero, in ascending index
order 0,1,2,3, with the record shape stated by the claim. -/
theorem read_returns_exactly_present_entries (t : Target) (c : FileBytes)
    (hc : t.entry = some (.regular c)) (hlen : 512 ≤ c.size) :
    print_mbr_partitions t = .ok (mbrEntries c.byte)
  ∧ mbrEntries c.byte
      = ((List.range 4).filter (fun i => specPresent c.byte i)).map
          (specRecord c.byte) := by
  constructor
  · unfold print_mbr_partitions
    rw [hc]
    simp [Nat.not_lt.mpr hlen]
  · rw [mbrEntries, filterMap_ite_none]
    have hfil : ((List.range 4).filter
          (fun i => decide ¬ (entryType c.byte i = 0 ∨ entrySize c.byte i = 0)))
        = ((List.range 4).filter (fun i => specPresent c.byte i)) := by
      apply List.filter_congr
      intro i _
      by_cases h1 : entryType c.byte i = 0 <;> by_cases h2 : entrySize c.byte i = 0 <;>
        simp [specPresent, h1, h2]
    rw [hfil]
    rfl

/-- Witness for C2 on the concrete image produced by `create_image`. -/
theorem read_returns_exactly_present_entries_witness :
    512 ≤ partitionedImage.size
  ∧ print_mbr_partitions partitionedTarget = .ok (mbrEntries partitionedImage.byte) :=
  ⟨by decide,
   (read_returns_exactly_present_entries partitionedTarget partitionedImage rfl
     (by decide)).1⟩

/-- Elimination of a successful `add_single_partition`: the guard and all
validations passed, and the resulting state is the read sector (repaired if
unsigned) with entry 0 filled, written back over the first 512 bytes. -/
theorem add_ok_elim (t : Target) (e : Env) (c : FileBytes)
    (hc : t.entry = some (.regular c))
    (hok : (add_single_partition t e).res = .ok) :
    forbidden_target t = false
  ∧ 1024 ≤ c.size
  ∧ c.size / 512 ≤ 4294967295
  ∧ anyPresent (if hasSig c.byte then c.byte else freshSector) = false
  ∧ e.writeOk = true
  ∧ add_single_partition t e
      = ⟨.ok,
         { t with entry := some (.regular (writeBackSector c
             (setEntry0 (if hasSig c.byte then c.byte else freshSector)
               (c.size / 512 - 1)))) },
         [.evOpen, .evRead, .evWrite, .evFlush]⟩ := by
  unfold add_single_partition at hok ⊢
  rw [hc] at hok ⊢
  by_cases h1 : forbidden_target t = true
  · simp [h1] at hok
  · rw [Bool.not_eq_true] at h1
    simp only [h1, Bool.false_eq_true, if_false] at hok ⊢
    by_cases h2 : c.size = 0
    · simp [h2] at hok
    · simp only [h2, if_false] at hok ⊢
      by_cases h3 : c.size < 1024
      · simp [h3] at hok
      · simp only [h3, if_false] at hok ⊢
        by_cases h4 : 4294967295 < c.size / 512
        · simp [h4] at hok
        · simp only [h4, if_false] at hok ⊢
          have h5 : ¬ c.size < 512 := by omega
          simp only [h5, if_false] at hok ⊢
          by_cases h6 : anyPresent (if hasSig c.byte then c.byte else freshSector) = true
          · simp [h6] at hok
          · rw [Bool.not_eq_true] at h6
            simp only [h6, Bool.false_eq_true, if_false] at hok ⊢
            by_cases h7 : e.writeOk = true
            · simp only [h7, if_true] at hok ⊢
              exact ⟨by trivial, by omega, by omega, by trivial, by trivial, by trivial⟩
            · simp [h7] at hok

/-- Claim C3: whenever `add_single_partition` succeeds on a regular file,
the resulting first sector's entry 0 has boot indicator 0, type `0x83`,
start LBA 1, and size `(size / 512) - 1`, and entries 1..3 remain absent. -/
theorem add_success_entry0 (t : Target) (e : Env) (c : FileBytes)
    (hc : t.entry = some (.regular c))
    (hok : (add_single_partition t e).res = .ok) :
    ∃ cW, (add_single_partition t e).tgt.entry = some (.regular cW)
      ∧ cW.size = c.size
      ∧ entryBoot cW.byte 0 = 0
      ∧ entryType cW.byte 0 = 0x83
      ∧ entryStartLba cW.byte 0 = 1
      ∧ entrySize cW.byte 0 = c.size / 512 - 1
      ∧ entryPresent cW.byte 1 = false
      ∧ entryPresent cW.byte 2 = false
      ∧ entryPresent cW.byte 3 = false := by
  obtain ⟨h1, h2, h3, h4, h5, heq⟩ := add_ok_elim t e c hc hok
  rw [heq]
  set s1 : Sector := if hasSig c.byte then c.byte else freshSector with hs1
  refine ⟨_, rfl, writeBackSector_size _ _, ?_, ?_, ?_, ?_, ?_, ?_, ?_⟩
  · rw [show entryBoot (writeBackSector c (setEntry0 s1 (c.size / 512 - 1))).byte 0
        = setEntry0 s1 (c.size / 512 - 1) (446 + 16 * 0) from
      writeBackSector_byte_lt _ _ _ (by omega)]
    exact entryBoot_setEntry0 s1 _
  · rw [show entryType (writeBackSector c (setEntry0 s1 (c.size / 512 - 1))).byte 0
        = setEntry0 s1 (c.size / 512 - 1) (446 + 16 * 0 + 4) from
      writeBackSector_byte_lt _ _ _ (by omega)]
    exact entryType_setEntry0 s1 _
  · rw [show entryStartLba (writeBackSector c (setEntry0 s1 (c.size / 512 - 1))).byte 0
        = le32 (setEntry0 s1 (c.size / 512 - 1)) (446 + 16 * 0 + 8) from
      le32_writeBack _ _ _ (by omega)]
    exact entryStartLba_setEntry0 s1 _
  · rw [show entrySize (writeBackSector c (setEntry0 s1 (c.size / 512 - 1))).byte 0
        = le32 (setEntry0 s1 (c.size / 512 - 1)) (446 + 16 * 0 + 12) from
      le32_writeBack _ _ _ (by omega)]
    exact entrySize_setEntry0 s1 _ (by omega)
  · rw [entryPresent_writeBack _ _ _ (by omega), entryPresent_setEntry0 _ _ _ (by omega)]
    have := anyPresent_eq s1
    rw [h4] at this
    simp only [Bool.false_eq, Bool.or_eq_false_iff] at this
    exact this.2.1
  · rw [entryPresent_writeBack _ _ _ (by omega), entryPresent_setEntry0 _ _ _ (by omega)]
    have := anyPresent_eq s1
    rw [h4] at this
    simp only [Bool.false_eq, Bool.or_eq_false_iff] at this
    exact this.2.2.1
  · rw [entryPresent_writeBack _ _ _ (by omega), entryPresent_setEntry0 _ _ _ (by omega)]
    have := anyPresent_eq s1
    rw [h4] at this
    simp only [Bool.false_eq, Bool.or_eq_false_iff] at this
    exact this.2.2.2

/-- Witness for C3 on the concrete 1024-byte all-zero image. -/
theorem add_success_entry0_witness :
    (add_single_partition emptyImageTarget envAll).res = .ok
  ∧ ∃ cW, (add_single_partition emptyImageTarget envAll).tgt.entry
        = some (.regular cW)
      ∧ cW.size = emptyImage.size
      ∧ entryBoot cW.byte 0 = 0
      ∧ entryType cW.byte 0 = 0x83
      ∧ entryStartLba cW.byte 0 = 1
      ∧ entrySize cW.byte 0 = emptyImage.size / 512 - 1
      ∧ entryPresent cW.byte 1 = false
      ∧ entryPresent cW.byte 2 = false
      ∧ entryPresent cW.byte 3 = false :=
  ⟨by decide, add_success_entry0 emptyImageTarget envAll emptyImage rfl (by decide)⟩

/-- Bytes inside the 64-byte table region are zeroed by the wipe. -/
theorem wipeSector_in (s : Sector) (i : Nat) (h1 : 446 ≤ i) (h2 : i < 510) :
    wipeSector s i = 0 := by
  simp [wipeSector, h1, h2]

/-- Bytes outside the table region are untouched by the wipe. -/
theorem wipeSector_out (s : Sector) (i : Nat) (h : i < 446 ∨ 510 ≤ i) :
    wipeSector s i = s i := by
  unfold wipeSector
  have hn : ¬ (446 ≤ i ∧ i < 510) := by omega
  simp [hn]

/-- Elimination of a successful `wipe_mbr_partition_table`: the result is
the read sector with the table region zeroed, written back over the first
512 bytes. -/
theorem wipe_ok_elim (t : Target) (e : Env) (c : FileBytes)
    (hc : t.entry = some (.regular c)) (hforb : forbidden_target t = false)
    (hlen : 512 ≤ c.size) (hw : e.writeOk = true) :
    wipe_mbr_partition_table t e
      = ⟨.ok,
         { t with entry := some (.regular (writeBackSector c (wipeSector c.byte))) },
         [.evOpen, .evRead, .evWrite, .evFlush]⟩ := by
  unfold wipe_mbr_partition_table
  rw [hc]
  simp [hforb, Nat.not_lt.mpr hlen, hw]

/-- A path that passed the guard still passes it after its regular file is
rewritten: the prefix test sees the same path and the entry stays regular. -/
theorem forbidden_target_regular (t : Target) (hforb : forbidden_target t = false)
    (c : FileBytes) :
    forbidden_target { t with entry := some (.regular c) } = false := by
  unfold forbidden_target at hforb ⊢
  simp only [Bool.or_eq_false_iff] at hforb ⊢
  exact ⟨hforb.1, rfl⟩

/-- Claim C5: a successful wipe zeroes exactly bytes 446..509, preserves
bytes 0..445, the signature bytes 510..511, everything beyond the first
sector, and the file length; wiping the result again succeeds and leaves
every byte identical. -/
theorem wipe_zeroes_exactly_table_region (t : Target) (e : Env) (c : FileBytes)
    (hc : t.entry = some (.regular c)) (hforb : forbidden_target t = false)
    (hlen : 512 ≤ c.size) (hw : e.writeOk = true) :
    (wipe_mbr_partition_table t e).res = .ok
  ∧ ∃ cW, (wipe_mbr_partition_table t e).tgt.entry = some (.regular cW)
      ∧ cW.size = c.size
      ∧ (∀ i, 446 ≤ i → i < 510 → cW.byte i = 0)
      ∧ (∀ i, i < 446 → cW.byte i = c.byte i)
      ∧ cW.byte 510 = c.byte 510
      ∧ cW.byte 511 = c.byte 511
      ∧ (∀ i, 512 ≤ i → cW.byte i = c.byte i)
      ∧ (wipe_mbr_partition_table (wipe_mbr_partition_table t e).tgt e).res = .ok
      ∧ ∃ cW2,
          (wipe_mbr_partition_table (wipe_mbr_partition_table t e).tgt e).tgt.entry
            = some (.regular cW2)
        ∧ ∀ i, cW2.byte i = cW.byte i := by
  have heq := wipe_ok_elim t e c hc hforb hlen hw
  have hbyte_in : ∀ i, 446 ≤ i → i < 510 →
      (writeBackSector c (wipeSector c.byte)).byte i = 0 := by
    intro i h1 h2
    rw [writeBackSector_byte_lt _ _ _ (by omega), wipeSector_in _ _ h1 h2]
  have hbyte_lo : ∀ i, i < 446 →
      (writeBackSector c (wipeSector c.byte)).byte i = c.byte i := by
    intro i h1
    rw [writeBackSector_byte_lt _ _ _ (by omega), wipeSector_out _ _ (Or.inl h1)]
  have hbyte_sig : ∀ i, 510 ≤ i → i < 512 →
      (writeBackSector c (wipeSector c.byte)).byte i = c.byte i := by
    intro i h1 h2
    rw [writeBackSector_byte_lt _ _ _ (by omega), wipeSector_out _ _ (Or.inr h1)]
  have hbyte_hi : ∀ i, 512 ≤ i →
      (writeBackSector c (wipeSector c.byte)).byte i = c.byte i := by
    intro i h1
    exact writeBackSector_byte_ge _ _ _ h1
  rw [heq]
  refine ⟨rfl, writeBackSector c (wipeSector c.byte), rfl, rfl, hbyte_in, hbyte_lo,
    hbyte_sig 510 (by omega) (by omega), hbyte_sig 511 (by omega) (by omega),
    hbyte_hi, ?_, ?_⟩
  · rw [wipe_ok_elim _ e (writeBackSector c (wipeSector c.byte)) rfl
      (forbidden_target_regular t hforb _) (by rw [writeBackSector_size]; exact hlen) hw]
  · rw [wipe_ok_elim _ e (writeBackSector c (wipeSector c.byte)) rfl
      (forbidden_target_regular t hforb _) (by rw [writeBackSector_size]; exact hlen) hw]
    refine ⟨_, rfl, ?_⟩
    intro i
    by_cases h512 : i < 512
    · rw [writeBackSector_byte_lt _ _ _ h512]
      by_cases hreg : 446 ≤ i ∧ i < 510
      · rw [wipeSector_in _ _ hreg.1 hreg.2, hbyte_in i hreg.1 hreg.2]
      · rw [wipeSector_out _ _ (by omega)]
    · rw [writeBackSector_byte_ge _ _ _ (by omega)]

/-- Witness for C5 on the concrete image produced by `create_image`
(signature present, one entry present, nonzero bootstrap bytes absent). -/
theorem wipe_zeroes_exactly_table_region_witness :
    512 ≤ partitionedImage.size
  ∧ (wipe_mbr_partition_table partitionedTarget envAll).res = .ok :=
  ⟨by decide,
   (wipe_zeroes_exactly_table_region partitionedTarget envAll partitionedImage rfl
     (by decide) (by decide) rfl).1⟩

/-- `mbrEntries` is empty on any sector whose four size fields are zero. -/
theorem mbrEntries_eq_nil (s : Sector) (h : ∀ i, i < 4 → entrySize s i = 0) :
    mbrEntries s = [] := by
  have e0 := h 0 (by omega)
  have e1 := h 1 (by omega)
  have e2 := h 2 (by omega)
  have e3 := h 3 (by omega)
  unfold mbrEntries
  rw [show List.range 4 = [0, 1, 2, 3] from rfl]
  simp [List.filterMap_cons, e0, e1, e2, e3]

/-- Claim C8: a successful wipe followed by a read of the same target yields
the empty entry sequence, whatever the prior sector content was. -/
theorem wipe_then_read_empty (t : Target) (e : Env) (c : FileBytes)
    (hc : t.entry = some (.regular c)) (hforb : forbidden_target t = false)
    (hlen : 512 ≤ c.size) (hw : e.writeOk = true) :
    (wipe_mbr_partition_table t e).res = .ok
  ∧ print_mbr_partitions (wipe_mbr_partition_table t e).tgt = .ok [] := by
  have heq := wipe_ok_elim t e c hc hforb hlen hw
  rw [heq]
  refine ⟨rfl, ?_⟩
  show (if (writeBackSector c (wipeSector c.byte)).size < 512
        then ReadRes.err MbrError.IoError
        else ReadRes.ok (mbrEntries (writeBackSector c (wipeSector c.byte)).byte))
      = ReadRes.ok []
  rw [if_neg (by rw [writeBackSector_size]; omega)]
  rw [mbrEntries_eq_nil]
  intro i hi
  unfold entrySize le32
  rw [writeBackSector_byte_lt _ _ _ (by omega), writeBackSector_byte_lt _ _ _ (by omega),
      writeBackSector_byte_lt _ _ _ (by omega), writeBackSector_byte_lt _ _ _ (by omega),
      wipeSector_in _ _ (by omega) (by omega), wipeSector_in _ _ (by omega) (by omega),
      wipeSector_in _ _ (by omega) (by omega), wipeSector_in _ _ (by omega) (by omega)]

/-- Witness for C8 on the concrete image produced by `create_image`. -/
theorem wipe_then_read_empty_witness :
    forbidden_target partitionedTarget = false
  ∧ print_mbr_partitions (wipe_mbr_partition_table partitionedTarget envAll).tgt
      = .ok [] :=
  ⟨by decide,
   (wipe_then_read_empty partitionedTarget envAll partitionedImage rfl (by decide)
     (by decide) rfl).2⟩

/-- A fresh path: no filesystem entry yet. -/
def freshTarget : Target := ⟨"new.img", none⟩

/-- Claim C4: `create_image` on an existing path fails with `AlreadyExists`
and performs no write; on a fresh path (with parent directories creatable)
it produces a 524288-byte file with the boot signature, whose first sector
reads back as exactly one entry `(1, false, 0x83, 1, 1023)`, all content
beyond the first sector zero. -/
theorem create_image_spec (t : Target) (e : Env)
    (hforb : forbidden_target t = false) :
    (∀ fe, t.entry = some fe →
      (create_image_with_partition t e).res = .err .AlreadyExists
      ∧ (create_image_with_partition t e).evs = [])
  ∧ (t.entry = none → e.mkdirOk = true → e.writeOk = true →
      (create_image_with_partition t e).res = .ok
      ∧ ∃ cW, (create_image_with_partition t e).tgt.entry = some (.regular cW)
          ∧ cW.size = 524288
          ∧ cW.byte 510 = 0x55
          ∧ cW.byte 511 = 0xAA
          ∧ mbrEntries cW.byte = [⟨1, false, 0x83, 1, 1023⟩]
          ∧ (∀ i, 512 ≤ i → cW.byte i = 0)) := by
  unfold create_image_with_partition
  constructor
  · intro fe hfe
    rw [hfe]
    simp [hforb]
  · intro hnone hm hw
    rw [hnone]
    simp only [hforb, Bool.false_eq_true, if_false, hm, hw, Bool.not_true, if_true]
    refine ⟨by trivial, _, rfl, rfl, by decide, by decide, by decide, ?_⟩
    intro i hi
    have hni : ¬ i < 512 := by omega
    simp [hni]

/-- Witness for C4: an existing image is refused, a fresh path succeeds. -/
theorem create_image_spec_witness :
    (create_image_with_partition partitionedTarget envAll).res = .err .AlreadyExists
  ∧ (create_image_with_partition freshTarget envAll).res = .ok :=
  ⟨((create_image_spec partitionedTarget envAll (by decide)).1 _ rfl).1,
   ((create_image_spec freshTarget envAll (by decide)).2 rfl rfl rfl).1⟩

/-- Claim C10: on a target whose first sector lacks the boot signature,
`add_single_partition` can never fail with `AlreadyPartitioned` (the stale
table is discarded before the presence check), and on success the written
sector's bytes 0..445 are all zero. -/
theorem add_without_signature (t : Target) (e : Env) (c : FileBytes)
    (hc : t.entry = some (.regular c)) (hsig : hasSig c.byte = false) :
    (add_single_partition t e).res ≠ .err .AlreadyPartitioned
  ∧ ((add_single_partition t e).res = .ok →
      ∃ cW, (add_single_partition t e).tgt.entry = some (.regular cW)
        ∧ ∀ i, i < 446 → cW.byte i = 0) := by
  constructor
  · unfold add_single_partition
    rw [hc]
    by_cases h1 : forbidden_target t = true
    · simp [h1]
    · rw [Bool.not_eq_true] at h1
      simp only [h1, Bool.false_eq_true, if_false]
      by_cases h2 : c.size = 0
      · simp [h2]
      · simp only [h2, if_false]
        by_cases h3 : c.size < 1024
        · simp [h3]
        · simp only [h3, if_false]
          by_cases h4 : 4294967295 < c.size / 512
          · simp [h4]
          · simp only [h4, if_false]
            have h5 : ¬ c.size < 512 := by omega
            simp only [h5, if_false, hsig, Bool.false_eq_true, if_false]
            rw [show anyPresent freshSector = false from by decide]
            simp only [Bool.false_eq_true, if_false]
            by_cases h7 : e.writeOk = true <;> simp [h7]
  · intro hok
    obtain ⟨h1, h2, h3, h4, h5, heq⟩ := add_ok_elim t e c hc hok
    rw [heq]
    refine ⟨_, rfl, ?_⟩
    intro i hi
    rw [writeBackSector_byte_lt _ _ _ (by omega), setEntry0_frame _ _ _ (Or.inl hi),
        hsig]
    simp only [Bool.false_eq_true, if_false]
    unfold freshSector
    have hi0 : i ≠ 510 := by omega
    have hi1 : i ≠ 511 := by omega
    simp [hi0, hi1]

/-- Witness for C10 on the concrete 1024-byte all-zero (unsigned) image. -/
theorem add_without_signature_witness :
    hasSig emptyImage.byte = false
  ∧ (add_single_partition emptyImageTarget envAll).res ≠ .err .AlreadyPartitioned :=
  ⟨by decide,
   (add_without_signature emptyImageTarget envAll emptyImage rfl (by decide)).1⟩

/-- A 1024-byte image with no boot signature whose table region nevertheless
holds a fully populated (present) entry 0: type `0x83` at offset 450, size 1
at offset 458. -/
def unsignedPartitionedImage : FileBytes :=
  ⟨1024, fun i => if i = 450 then 0x83 else if i = 458 then 1 else 0⟩

/-- Target holding `unsignedPartitionedImage` at a regular-file path. -/
def unsignedPartitionedTarget : Target :=
  ⟨"odd.img", some (.regular unsignedPartitionedImage)⟩

/-- Counterexample to claim C6 as stated: entry 0 of the sector read from
`unsignedPartitionedTarget` is present (type and size both nonzero), yet
`add_single_partition` succeeds instead of failing with `AlreadyPartitioned`:
the missing boot signature makes the codec discard the stale table before
the presence check. -/
theorem add_already_partitioned_cex :
    entryPresent unsignedPartitionedImage.byte 0 = true
  ∧ (add_single_partition unsignedPartitionedTarget envAll).res = .ok := by
  decide

/-- Behavior of `add_single_partition` on a signed, size-valid sector with a
present entry: `AlreadyPartitioned`, target untouched, nothing written. -/
theorem add_busy_aux (t : Target) (e : Env) (c : FileBytes)
    (hc : t.entry = some (.regular c)) (hforb : forbidden_target t = false)
    (hsize : 1024 ≤ c.size) (hmax : c.size / 512 ≤ 4294967295)
    (hsig : hasSig c.byte = true) (hpres : anyPresent c.byte = true) :
    add_single_partition t e
      = ⟨.err .AlreadyPartitioned, t, [.evOpen, .evRead]⟩ := by
  unfold add_single_partition
  rw [hc]
  simp only [hforb, Bool.false_eq_true, if_false]
  rw [if_neg (by omega), if_neg (by omega), if_neg (by omega), if_neg (by omega)]
  simp only [hsig, if_true, hpres]

/-- Claim C6 (amended): when the sector read carries the `0x55 0xAA`
signature and the size validations pass, any present entry makes
`add_single_partition` fail with `AlreadyPartitioned`, performing no write
and leaving the target byte-for-byte unchanged; in particular calling
`add_single_partition` again immediately after a successful add fails this
way with the target unchanged. -/
theorem add_already_partitioned (t : Target) (e : Env) (c : FileBytes)
    (hc : t.entry = some (.regular c)) :
    (forbidden_target t = false → 1024 ≤ c.size → c.size / 512 ≤ 4294967295 →
      hasSig c.byte = true → anyPresent c.byte = true →
      (add_single_partition t e).res = .err .AlreadyPartitioned
      ∧ (add_single_partition t e).tgt = t
      ∧ Ev.evWrite ∉ (add_single_partition t e).evs)
  ∧ ((add_single_partition t e).res = .ok →
      (add_single_partition (add_single_partition t e).tgt e).res
          = .err .AlreadyPartitioned
      ∧ (add_single_partition (add_single_partition t e).tgt e).tgt
          = (add_single_partition t e).tgt) := by
  constructor
  · intro hforb hsize hmax hsig hpres
    rw [add_busy_aux t e c hc hforb hsize hmax hsig hpres]
    refine ⟨rfl, rfl, ?_⟩
    show Ev.evWrite ∉ [Ev.evOpen, Ev.evRead]
    decide
  · intro hok
    obtain ⟨h1, h2, h3, h4, h5, heq⟩ := add_ok_elim t e c hc hok
    rw [heq]
    set v : Nat := c.size / 512 - 1 with hv
    set s1 : Sector := if hasSig c.byte then c.byte else freshSector with hs1
    set cW : FileBytes := writeBackSector c (setEntry0 s1 v) with hcW
    have h510 : cW.byte 510 = 0x55 := by
      rw [hcW, writeBackSector_byte_lt _ _ _ (by omega),
          setEntry0_frame _ _ _ (by omega), hs1]
      by_cases hs : hasSig c.byte = true
      · rw [if_pos hs]
        unfold hasSig at hs
        simp only [Bool.and_eq_true, decide_eq_true_eq] at hs
        exact hs.1
      · rw [if_neg hs]
        rfl
    have h511 : cW.byte 511 = 0xAA := by
      rw [hcW, writeBackSector_byte_lt _ _ _ (by omega),
          setEntry0_frame _ _ _ (by omega), hs1]
      by_cases hs : hasSig c.byte = true
      · rw [if_pos hs]
        unfold hasSig at hs
        simp only [Bool.and_eq_true, decide_eq_true_eq] at hs
        exact hs.2
      · rw [if_neg hs]
        rfl
    have hsig2 : hasSig cW.byte = true := by
      unfold hasSig
      rw [h510, h511]
      decide
    have htype : entryType cW.byte 0 = 0x83 := by
      rw [hcW, show entryType (writeBackSector c (setEntry0 s1 v)).byte 0
            = setEntry0 s1 v (446 + 16 * 0 + 4) from
          writeBackSector_byte_lt _ _ _ (by omega)]
      exact entryType_setEntry0 s1 v
    have hsz : entrySize cW.byte 0 = v := by
      rw [hcW, show entrySize (writeBackSector c (setEntry0 s1 v)).byte 0
            = le32 (setEntry0 s1 v) (446 + 16 * 0 + 12) from
          le32_writeBack _ _ _ (by omega)]
      exact entrySize_setEntry0 s1 v (by omega)
    have hpres0 : entryPresent cW.byte 0 = true := by
      unfold entryPresent
      rw [htype, hsz]
      have hvpos : v ≠ 0 := by omega
      simp [hvpos]
    have hpres2 : anyPresent cW.byte = true := by
      rw [anyPresent_eq, hpres0]
      rfl
    have hsz2 : cW.size = c.size := by
      rw [hcW, writeBackSector_size]
    rw [add_busy_aux _ e cW rfl (forbidden_target_regular t h1 cW)
      (by omega) (by rw [hsz2]; omega) hsig2 hpres2]
    exact ⟨rfl, rfl⟩

/-- Witness for the amended C6: a second add on the image just populated by
a first successful add fails with `AlreadyPartitioned` and changes nothing. -/
theorem add_already_partitioned_witness :
    (add_single_partition
        (add_single_partition emptyImageTarget envAll).tgt envAll).res
      = .err .AlreadyPartitioned :=
  ((add_already_partitioned emptyImageTarget envAll emptyImage rfl).2 (by decide)).1

/-- A zero-byte regular file. -/
def zeroLenImage : FileBytes := ⟨0, fun _ => 0⟩

/-- Target holding `zeroLenImage` at a regular-file path. -/
def zeroLenTarget : Target := ⟨"zero.img", some (.regular zeroLenImage)⟩

/-- A 1023-byte all-zero image, one byte short of two sectors. -/
def smallImage : FileBytes := ⟨1023, fun _ => 0⟩

/-- Target holding `smallImage` at a regular-file path. -/
def smallTarget : Target := ⟨"small.img", some (.regular smallImage)⟩

/-- Counterexample to claim C7 as stated: the zero-byte target's length is
below 1024, yet `add_single_partition` fails from the `file_size <= 0`
(size indeterminable) branch, reported as `IoError`, not as `TooSmall`. -/
theorem add_toosmall_cex :
    zeroLenImage.size < 1024
  ∧ (add_single_partition zeroLenTarget envAll).res = .err .IoError
  ∧ ¬ (add_single_partition zeroLenTarget envAll).res = .err .TooSmall := by
  decide

/-- On a signed-or-not, size-valid target, `add_single_partition` can only
end in `AlreadyPartitioned`, success, or a write failure. -/
theorem add_res_big (t : Target) (e : Env) (c : FileBytes)
    (hc : t.entry = some (.regular c)) (hforb : forbidden_target t = false)
    (hsize : 1024 ≤ c.size) (hmax : c.size / 512 ≤ 4294967295) :
    (add_single_partition t e).res = .err .AlreadyPartitioned
  ∨ (add_single_partition t e).res = .ok
  ∨ ((add_single_partition t e).res = .err .IoError ∧ e.writeOk = false) := by
  unfold add_single_partition
  rw [hc]
  simp only [hforb, Bool.false_eq_true, if_false]
  rw [if_neg (by omega), if_neg (by omega), if_neg (by omega), if_neg (by omega)]
  by_cases h6 : anyPresent (if hasSig c.byte then c.byte else freshSector) = true
  · simp [h6]
  · rw [Bool.not_eq_true] at h6
    simp only [h6, Bool.false_eq_true, if_false]
    by_cases h7 : e.writeOk = true
    · simp [h7]
    · rw [Bool.not_eq_true] at h7
      simp [h7]

/-- Claim C7 (amended): on a regular non-forbidden target,
`add_single_partition` fails with `TooSmall` iff the byte length is positive
and below 1024 — a zero-length target fails with `IoError` from the
`file_size <= 0` branch instead — and fails with `TooLarge` iff the
truncating quotient `size / 512` exceeds `2^32 - 1`; a 1024-byte empty
target succeeds with entry size 1 sector, a 1023-byte target fails with
`TooSmall`. -/
theorem add_size_checks (t : Target) (e : Env) (c : FileBytes)
    (hc : t.entry = some (.regular c)) (hforb : forbidden_target t = false) :
    ((add_single_partition t e).res = .err .TooSmall
        ↔ 0 < c.size ∧ c.size < 1024)
  ∧ ((add_single_partition t e).res = .err .TooLarge
        ↔ 4294967295 < c.size / 512)
  ∧ (c.size = 0 → (add_single_partition t e).res = .err .IoError)
  ∧ (add_single_partition emptyImageTarget envAll).res = .ok
  ∧ (∃ cW, (add_single_partition emptyImageTarget envAll).tgt.entry
        = some (.regular cW) ∧ entrySize cW.byte 0 = 1)
  ∧ (add_single_partition smallTarget envAll).res = .err .TooSmall := by
  refine ⟨?_, ?_, ?_, by decide, ⟨_, rfl, by decide⟩, by decide⟩
  · by_cases h2 : c.size = 0
    · rw [show (add_single_partition t e).res = .err .IoError from by
        unfold add_single_partition; rw [hc]; simp [hforb, h2]]
      simp
      omega
    · by_cases h3 : c.size < 1024
      · rw [show (add_single_partition t e).res = .err .TooSmall from by
          unfold add_single_partition; rw [hc]; simp [hforb, h2, h3]]
        simp
        omega
      · by_cases h4 : 4294967295 < c.size / 512
        · rw [show (add_single_partition t e).res = .err .TooLarge from by
            unfold add_single_partition; rw [hc]
            simp only [hforb, Bool.false_eq_true, if_false]
            rw [if_neg (by omega), if_neg (by omega), if_pos h4]]
          simp
          omega
        · rcases add_res_big t e c hc hforb (by omega) (by omega) with h | h | ⟨h, _⟩ <;>
            rw [h] <;> simp <;> omega
  · by_cases h2 : c.size = 0
    · rw [show (add_single_partition t e).res = .err .IoError from by
        unfold add_single_partition; rw [hc]; simp [hforb, h2]]
      simp
      omega
    · by_cases h3 : c.size < 1024
      · rw [show (add_single_partition t e).res = .err .TooSmall from by
          unfold add_single_partition; rw [hc]; simp [hforb, h2, h3]]
        simp
        have hq : c.size / 512 ≤ 1 := by omega
        omega
      · by_cases h4 : 4294967295 < c.size / 512
        · rw [show (add_single_partition t e).res = .err .TooLarge from by
            unfold add_single_partition; rw [hc]
            simp only [hforb, Bool.false_eq_true, if_false]
            rw [if_neg (by omega), if_neg (by omega), if_pos h4]]
          simp [h4]
        · rcases add_res_big t e c hc hforb (by omega) (by omega) with h | h | ⟨h, _⟩ <;>
            rw [h] <;> simp <;> omega
  · intro h2
    unfold add_single_partition
    rw [hc]
    simp [hforb, h2]

/-- Witness for the amended C7 on the 1023-byte target. -/
theorem add_size_checks_witness :
    (add_single_partition smallTarget envAll).res = .err .TooSmall :=
  (add_size_checks smallTarget envAll smallImage rfl (by decide)).1.mpr (by decide)

/-- Complete enumeration of the outcomes of `wipe_mbr_partition_table`. -/
theorem wipe_cases (t : Target) (e : Env) :
    wipe_mbr_partition_table t e = ⟨.err .ForbiddenTarget, t, []⟩
  ∨ wipe_mbr_partition_table t e = ⟨.err .NotFound, t, [.evOpen]⟩
  ∨ wipe_mbr_partition_table t e = ⟨.err .IoError, t, [.evOpen, .evRead]⟩
  ∨ (e.writeOk = false
      ∧ wipe_mbr_partition_table t e
          = ⟨.err .IoError, t, [.evOpen, .evRead, .evWrite]⟩)
  ∨ (e.writeOk = true ∧ (wipe_mbr_partition_table t e).res = .ok
      ∧ (wipe_mbr_partition_table t e).evs
          = [.evOpen, .evRead, .evWrite, .evFlush]) := by
  unfold wipe_mbr_partition_table
  by_cases h1 : forbidden_target t = true
  · simp [h1]
  · rw [Bool.not_eq_true] at h1
    simp only [h1, Bool.false_eq_true, if_false]
    rcases ht : t.entry with _ | fe
    · simp
    · rcases fe with c | _ | _
      · by_cases h2 : c.size < 512
        · simp [h2]
        · simp only [h2, if_false]
          by_cases h3 : e.writeOk = true
          · simp [h3]
          · rw [Bool.not_eq_true] at h3
            simp [h3]
      · simp
      · simp

/-- Complete enumeration of the outcomes of `add_single_partition`. -/
theorem add_cases (t : Target) (e : Env) :
    add_single_partition t e = ⟨.err .ForbiddenTarget, t, []⟩
  ∨ add_single_partition t e = ⟨.err .NotFound, t, [.evOpen]⟩
  ∨ add_single_partition t e = ⟨.err .IoError, t, [.evOpen]⟩
  ∨ add_single_partition t e = ⟨.err .TooSmall, t, [.evOpen]⟩
  ∨ add_single_partition t e = ⟨.err .TooLarge, t, [.evOpen]⟩
  ∨ add_single_partition t e = ⟨.err .IoError, t, [.evOpen, .evRead]⟩
  ∨ add_single_partition t e = ⟨.err .AlreadyPartitioned, t, [.evOpen, .evRead]⟩
  ∨ (e.writeOk = false ∧ (add_single_partition t e).res = .err .IoError
      ∧ (add_single_partition t e).evs = [.evOpen, .evRead, .evWrite])
  ∨ (e.writeOk = true ∧ (add_single_partition t e).res = .ok
      ∧ (add_single_partition t e).evs
          = [.evOpen, .evRead, .evWrite, .evFlush]) := by
  unfold add_single_partition
  by_cases h1 : forbidden_target t = true
  · simp [h1]
  · rw [Bool.not_eq_true] at h1
    simp only [h1, Bool.false_eq_true, if_false]
    rcases ht : t.entry with _ | fe
    · simp
    · rcases fe with c | _ | _
      · by_cases h2 : c.size = 0
        · simp [h2]
        · simp only [h2, if_false]
          by_cases h3 : c.size < 1024
          · simp [h3]
          · simp only [h3, if_false]
            by_cases h4 : 4294967295 < c.size / 512
            · simp [h4]
            · simp only [h4, if_false]
              by_cases h5 : c.size < 512
              · simp [h5]
              · simp only [h5, if_false]
                by_cases h6 : anyPresent
                    (if hasSig c.byte then c.byte else freshSector) = true
                · simp [h6]
                · rw [Bool.not_eq_true] at h6
                  simp only [h6, Bool.false_eq_true, if_false]
                  by_cases h7 : e.writeOk = true
                  · simp [h7]
                  · rw [Bool.not_eq_true] at h7
                    simp [h7]
      · simp
      · simp

/-- Complete enumeration of the outcomes of `create_image_with_partition`. -/
theorem create_cases (t : Target) (e : Env) :
    create_image_with_partition t e = ⟨.err .ForbiddenTarget, t, []⟩
  ∨ create_image_with_partition t e = ⟨.err .AlreadyExists, t, []⟩
  ∨ create_image_with_partition t e = ⟨.err .IoError, t, []⟩
  ∨ (e.writeOk = false ∧ (create_image_with_partition t e).res = .err .IoError
      ∧ (create_image_with_partition t e).evs = [.evOpen, .evWrite])
  ∨ (e.writeOk = true ∧ (create_image_with_partition t e).res = .ok
      ∧ (create_image_with_partition t e).evs
          = [.evOpen, .evWrite, .evWrite, .evFlush]) := by
  unfold create_image_with_partition
  by_cases h1 : forbidden_target t = true
  · simp [h1]
  · rw [Bool.not_eq_true] at h1
    simp only [h1, Bool.false_eq_true, if_false]
    rcases ht : t.entry with _ | fe
    · by_cases h2 : e.mkdirOk = true
      · simp only [h2, Bool.not_true, Bool.false_eq_true, if_false]
        by_cases h3 : e.writeOk = true
        · simp [h3]
        · rw [Bool.not_eq_true] at h3
          simp [h3]
      · rw [Bool.not_eq_true] at h2
        simp [h2]
    · simp

/-- Counterexample to claim C9 as stated: with the final flush failing
(`flushOk = false`), `wipe` still performs the flush and reports success —
`dev.flush()` is called but the stream state is never checked afterwards,
so a flush failure is not reported as `IoError`. -/
theorem flush_failure_ignored_cex :
    (wipe_mbr_partition_table emptyImageTarget envNoFlush).res = .ok
  ∧ Ev.evFlush ∈ (wipe_mbr_partition_table emptyImageTarget envNoFlush).evs := by
  decide

/-- Claim C9 (amended): every mutating operation flushes before returning
success, and a failed final write is reported as `IoError` — with failing
writes no operation can report success; the result of the flush itself is
ignored, so each operation's outcome is identical whether the flush
succeeds or fails. -/
theorem mutating_ops_flush_and_write_errors (t : Target) (w f m : Bool) :
    ((wipe_mbr_partition_table t ⟨w, f, m⟩).res = .ok →
        Ev.evFlush ∈ (wipe_mbr_partition_table t ⟨w, f, m⟩).evs)
  ∧ ((add_single_partition t ⟨w, f, m⟩).res = .ok →
        Ev.evFlush ∈ (add_single_partition t ⟨w, f, m⟩).evs)
  ∧ ((create_image_with_partition t ⟨w, f, m⟩).res = .ok →
        Ev.evFlush ∈ (create_image_with_partition t ⟨w, f, m⟩).evs)
  ∧ (w = false →
        (Ev.evWrite ∈ (wipe_mbr_partition_table t ⟨w, f, m⟩).evs →
            (wipe_mbr_partition_table t ⟨w, f, m⟩).res = .err .IoError)
      ∧ (Ev.evWrite ∈ (add_single_partition t ⟨w, f, m⟩).evs →
            (add_single_partition t ⟨w, f, m⟩).res = .err .IoError)
      ∧ (Ev.evWrite ∈ (create_image_with_partition t ⟨w, f, m⟩).evs →
            (create_image_with_partition t ⟨w, f, m⟩).res = .err .IoError)
      ∧ ¬ (wipe_mbr_partition_table t ⟨w, f, m⟩).res = .ok
      ∧ ¬ (add_single_partition t ⟨w, f, m⟩).res = .ok
      ∧ ¬ (create_image_with_partition t ⟨w, f, m⟩).res = .ok)
  ∧ wipe_mbr_partition_table t ⟨w, f, m⟩ = wipe_mbr_partition_table t ⟨w, true, m⟩
  ∧ add_single_partition t ⟨w, f, m⟩ = add_single_partition t ⟨w, true, m⟩
  ∧ create_image_with_partition t ⟨w, f, m⟩
      = create_image_with_partition t ⟨w, true, m⟩ := by
  refine ⟨?_, ?_, ?_, ?_, rfl, rfl, rfl⟩
  · intro h
    rcases wipe_cases t ⟨w, f, m⟩ with hcs | hcs | hcs | ⟨_, hcs⟩ | ⟨_, _, hcs⟩
    · rw [hcs] at h; simp at h
    · rw [hcs] at h; simp at h
    · rw [hcs] at h; simp at h
    · rw [hcs] at h; simp at h
    · rw [hcs]; decide
  · intro h
    rcases add_cases t ⟨w, f, m⟩ with
      hcs | hcs | hcs | hcs | hcs | hcs | hcs | ⟨_, hcs, _⟩ | ⟨_, _, hcs⟩
    · rw [hcs] at h; simp at h
    · rw [hcs] at h; simp at h
    · rw [hcs] at h; simp at h
    · rw [hcs] at h; simp at h
    · rw [hcs] at h; simp at h
    · rw [hcs] at h; simp at h
    · rw [hcs] at h; simp at h
    · rw [hcs] at h; simp at h
    · rw [hcs]; decide
  · intro h
    rcases create_cases t ⟨w, f, m⟩ with hcs | hcs | hcs | ⟨_, hcs, _⟩ | ⟨_, _, hcs⟩
    · rw [hcs] at h; simp at h
    · rw [hcs] at h; simp at h
    · rw [hcs] at h; simp at h
    · rw [hcs] at h; simp at h
    · rw [hcs]; decide
  · intro hw0
    refine ⟨?_, ?_, ?_, ?_, ?_, ?_⟩
    · intro h
      rcases wipe_cases t ⟨w, f, m⟩ with hcs | hcs | hcs | ⟨_, hcs⟩ | ⟨hok, _, _⟩
      · rw [hcs] at h ⊢; simp at h
      · rw [hcs] at h ⊢; simp at h
      · rw [hcs]
      · rw [hcs]
      · rw [hw0] at hok; simp at hok
    · intro h
      rcases add_cases t ⟨w, f, m⟩ with
        hcs | hcs | hcs | hcs | hcs | hcs | hcs | ⟨_, hres, _⟩ | ⟨hok, _, _⟩
      · rw [hcs] at h ⊢; simp at h
      · rw [hcs] at h ⊢; simp at h
      · rw [hcs]
      · rw [hcs] at h ⊢; simp at h
      · rw [hcs] at h ⊢; simp at h
      · rw [hcs]
      · rw [hcs] at h ⊢; simp at h
      · exact hres
      · rw [hw0] at hok; simp at hok
    · intro h
      rcases create_cases t ⟨w, f, m⟩ with hcs | hcs | hcs | ⟨_, hres, _⟩ | ⟨hok, _, _⟩
      · rw [hcs] at h ⊢; simp at h
      · rw [hcs] at h ⊢; simp at h
      · rw [hcs]
      · exact hres
      · rw [hw0] at hok; simp at hok
    · rcases wipe_cases t ⟨w, f, m⟩ with hcs | hcs | hcs | ⟨_, hcs⟩ | ⟨hok, _, _⟩
      · rw [hcs]; simp
      · rw [hcs]; simp
      · rw [hcs]; simp
      · rw [hcs]; simp
      · rw [hw0] at hok; simp at hok
    · rcases add_cases t ⟨w, f, m⟩ with
        hcs | hcs | hcs | hcs | hcs | hcs | hcs | ⟨_, hres, _⟩ | ⟨hok, _, _⟩
      · rw [hcs]; simp
      · rw [hcs]; simp
      · rw [hcs]; simp
      · rw [hcs]; simp
      · rw [hcs]; simp
      · rw [hcs]; simp
      · rw [hcs]; simp
      · rw [hres]; simp
      · rw [hw0] at hok; simp at hok
    · rcases create_cases t ⟨w, f, m⟩ with hcs | hcs | hcs | ⟨_, hres, _⟩ | ⟨hok, _, _⟩
      · rw [hcs]; simp
      · rw [hcs]; simp
      · rw [hcs]; simp
      · rw [hres]; simp
      · rw [hw0] at hok; simp at hok

/-- Witness for the amended C9: the success path flushes, and with failing
writes the wipe reports `IoError` rather than success. -/
theorem mutating_ops_flush_and_write_errors_witness :
    Ev.evFlush ∈ (wipe_mbr_partition_table emptyImageTarget envAll).evs
  ∧ ¬ (wipe_mbr_partition_table emptyImageTarget envNoWrite).res = .ok :=
  ⟨(mutating_ops_flush_and_write_errors emptyImageTarget true true true).1
      (by decide),
   ((mutating_ops_flush_and_write_errors emptyImageTarget false true
      true).2.2.2.1 rfl).2.2.2.1⟩

end Nyns
